import Mathlib

/-!
Verification development for the onelens feature-deduplication and
priority-scoring engine.

The Python sources embedded here:
  - backend/app/services/priority_scoring.py (PriorityScoringService)
  - backend/app/services/embedding.py (EmbeddingService)
  - backend/app/services/rfp_processor.py (RFPProcessor)

Modelling conventions:
  - Python float arithmetic in the scoring engine is modelled exactly over
    rationals; vector arithmetic in the similarity functions is modelled over
    the reals (norms involve square roots).
  - Database rows are modelled as explicit inputs: the scoring service only
    consumes the latest analysis row of each kind, so each is an Option of a
    record holding exactly the columns the service reads.  Nullable columns
    become Option fields.
  - numpy division of a vector by its zero norm produces NaN entries which
    propagate through the dot product; a NaN result is modelled as none.  A
    NaN similarity fails every `>=` comparison, matching numpy semantics.
  - Python list.sort with a key and reverse=True is a stable descending sort;
    it is modelled by a stable insertion sort by the score projection.
-/

/-- Customer segment enum (backend/app/models/enums.py, CustomerSegment). -/
inductive CustomerSegment where
  | SMALL
  | MEDIUM
  | LARGE
  | ENTERPRISE
deriving DecidableEq, Repr

/-- Urgency level enum (backend/app/models/enums.py, UrgencyLevel). -/
inductive UrgencyLevel where
  | CRITICAL
  | HIGH
  | MEDIUM
  | LOW
deriving DecidableEq, Repr

/-- PriorityScoringService.CUSTOMER_WEIGHTS (priority_scoring.py lines 21-26). -/
def CUSTOMER_WEIGHTS : CustomerSegment → ℚ
  | CustomerSegment.SMALL => 1.0
  | CustomerSegment.MEDIUM => 2.5
  | CustomerSegment.LARGE => 5.0
  | CustomerSegment.ENTERPRISE => 10.0

/-- PriorityScoringService.URGENCY_MULTIPLIERS (priority_scoring.py lines 29-34). -/
def URGENCY_MULTIPLIERS : UrgencyLevel → ℚ
  | UrgencyLevel.CRITICAL => 2.0
  | UrgencyLevel.HIGH => 1.5
  | UrgencyLevel.MEDIUM => 1.0
  | UrgencyLevel.LOW => 0.5

/-- The scoring weight dictionary (priority_scoring.py lines 37-43). -/
structure ScoringWeights where
  customer_impact : ℚ
  trend_alignment : ℚ
  business_impact : ℚ
  market_opportunity : ℚ
  segment_diversity : ℚ
deriving DecidableEq, Repr

/-- PriorityScoringService.WEIGHTS (priority_scoring.py lines 37-43). -/
def WEIGHTS : ScoringWeights :=
  { customer_impact := 0.30
    trend_alignment := 0.20
    business_impact := 0.25
    market_opportunity := 0.20
    segment_diversity := 0.05 }

/-- One row of the join FeatureRequest x Customer consumed by
_calculate_customer_impact_score: `request.urgency` and `customer.segment`
are both nullable enum columns, so each is an Option. -/
structure LinkedRequest where
  urgency : Option UrgencyLevel
  segment : Option CustomerSegment
deriving DecidableEq, Repr

/-- The single column of the latest trend_analysis row the service reads
(models/analysis.py: trend_score, DECIMAL(3,1), nullable). -/
structure TrendAnalysis where
  trend_score : Option ℚ
deriving DecidableEq, Repr

/-- The single column of the latest business_impact_analysis row the service
reads (models/analysis.py: impact_score, Integer, nullable). -/
structure BusinessImpactAnalysis where
  impact_score : Option ℤ
deriving DecidableEq, Repr

/-- The two columns of the latest market_opportunity_analysis row the service
reads (models/analysis.py: both Integer, total nullable and truthiness tested). -/
structure MarketOpportunityAnalysis where
  total_competitors_analyzed : Option ℤ
  competitors_not_providing : ℤ
deriving DecidableEq, Repr

/-- The per-feature database state that calculate_priority_score consumes:
all linked requests joined with their customers, and the latest analysis row
of each kind (none when no row exists). -/
structure ScoringInputs where
  requests : List LinkedRequest
  trend : Option TrendAnalysis
  business : Option BusinessImpactAnalysis
  market : Option MarketOpportunityAnalysis

/-- The PriorityScore record created by calculate_priority_score
(priority_scoring.py lines 80-94); calculation_metadata stores the weights. -/
structure PriorityScore where
  final_score : ℚ
  customer_impact_score : ℚ
  trend_alignment_score : ℚ
  business_impact_score : ℚ
  market_opportunity_score : ℚ
  segment_diversity_score : ℚ
  weights_used : ScoringWeights
  algorithm_version : String
deriving DecidableEq, Repr

/-- PriorityScoringService._calculate_customer_impact_score
(priority_scoring.py lines 111-140): empty request set returns 0; otherwise
the sum of segment_weight * urgency_multiplier over all requests, scaled by 5
and capped at 100.  The dict .get defaults (1.0) fire on null columns. -/
def calculate_customer_impact_score (requests : List LinkedRequest) : ℚ :=
  if requests = [] then 0
  else
    let total_weight :=
      (requests.map (fun r =>
        (match r.segment with
         | some s => CUSTOMER_WEIGHTS s
         | none => 1.0) *
        (match r.urgency with
         | some u => URGENCY_MULTIPLIERS u
         | none => 1.0))).sum
    min (total_weight * 5) 100

/-- PriorityScoringService._calculate_trend_alignment_score
(priority_scoring.py lines 142-160): missing row gives the neutral 50;
otherwise `trend_score * 10 if trend_score else 50.0`, so a null or zero
trend_score also gives 50 (Python falsiness). -/
def calculate_trend_alignment_score (trend : Option TrendAnalysis) : ℚ :=
  match trend with
  | none => 50.0
  | some ta =>
    match ta.trend_score with
    | none => 50.0
    | some s => if s = 0 then 50.0 else s * 10

/-- PriorityScoringService._calculate_business_impact_score
(priority_scoring.py lines 162-179): missing row gives 50; otherwise
`impact_score if impact_score else 50.0`, so a null or zero impact_score
also gives 50 (Python falsiness). -/
def calculate_business_impact_score (business : Option BusinessImpactAnalysis) : ℚ :=
  match business with
  | none => 50.0
  | some ba =>
    match ba.impact_score with
    | none => 50.0
    | some s => if s = 0 then 50.0 else (s : ℚ)

/-- PriorityScoringService._calculate_market_opportunity_score
(priority_scoring.py lines 181-203): missing row or falsy (null or zero)
total_competitors_analyzed gives 50; otherwise the gap ratio
competitors_not_providing / total_competitors_analyzed times 100. -/
def calculate_market_opportunity_score (market : Option MarketOpportunityAnalysis) : ℚ :=
  match market with
  | none => 50.0
  | some ma =>
    match ma.total_competitors_analyzed with
    | none => 50.0
    | some t =>
      if t = 0 then 50.0
      else ((ma.competitors_not_providing : ℚ) / (t : ℚ)) * 100

/-- PriorityScoringService._calculate_segment_diversity_score
(priority_scoring.py lines 205-224): COUNT(DISTINCT Customer.segment) over the
linked requests (SQL COUNT ignores NULL segments); a zero count returns 0,
otherwise the count times 25 capped at 100. -/
def calculate_segment_diversity_score (requests : List LinkedRequest) : ℚ :=
  let unique_segments := ((requests.filterMap LinkedRequest.segment).dedup).length
  if unique_segments = 0 then 0
  else min ((unique_segments : ℚ) * 25) 100

/-- PriorityScoringService.calculate_priority_score (priority_scoring.py lines
48-103): the five component scores, their weighted sum, and the stored record
whose final_score is min(weighted sum, 100.0). -/
def calculate_priority_score (inp : ScoringInputs) : PriorityScore :=
  let customer_score := calculate_customer_impact_score inp.requests
  let trend_score := calculate_trend_alignment_score inp.trend
  let business_score := calculate_business_impact_score inp.business
  let market_score := calculate_market_opportunity_score inp.market
  let diversity_score := calculate_segment_diversity_score inp.requests
  let final_score :=
    customer_score * WEIGHTS.customer_impact +
    trend_score * WEIGHTS.trend_alignment +
    business_score * WEIGHTS.business_impact +
    market_score * WEIGHTS.market_opportunity +
    diversity_score * WEIGHTS.segment_diversity
  { final_score := min final_score 100.0
    customer_impact_score := customer_score
    trend_alignment_score := trend_score
    business_impact_score := business_score
    market_opportunity_score := market_score
    segment_diversity_score := diversity_score
    weights_used := WEIGHTS
    algorithm_version := "1.0" }

/-- Dot product of two vectors (numpy np.dot on 1-D arrays of the same fixed
embedding dimension; extra entries of a longer operand are ignored, which is
unreachable for the fixed-dimension callers). -/
def dotList : List ℝ → List ℝ → ℝ
  | a :: v, b :: w => a * b + dotList v w
  | _, _ => 0

/-- Euclidean norm (numpy np.linalg.norm): square root of the sum of squares. -/
noncomputable def l2norm (v : List ℝ) : ℝ :=
  Real.sqrt (dotList v v)

/-- EmbeddingService.compute_similarity (embedding.py lines 143-162): divide
each vector by its norm, dot the normalized vectors, rescale by (cos+1)/2.
There is no zero-norm guard in the source: dividing by a zero norm produces
NaN entries which propagate to a NaN result; NaN is modelled as none. -/
noncomputable def compute_similarity (embedding1 embedding2 : List ℝ) : Option ℝ :=
  if l2norm embedding1 = 0 ∨ l2norm embedding2 = 0 then none
  else
    some ((dotList (embedding1.map (· / l2norm embedding1))
      (embedding2.map (· / l2norm embedding2)) + 1) / 2)

/-- RFPProcessor._cosine_similarity (rfp_processor.py lines 60-73): raw cosine
similarity with an explicit zero-norm guard returning 0.0. -/
noncomputable def cosine_similarity (vec1 vec2 : List ℝ) : ℝ :=
  if l2norm vec1 = 0 ∨ l2norm vec2 = 0 then 0.0
  else dotList vec1 vec2 / (l2norm vec1 * l2norm vec2)

/-- Stable insertion step for a descending sort by a score projection: the new
element x goes in front of the first resident y whose score does not exceed
x's, so among equal scores earlier-inserted elements stay in front. -/
def insertByScoreDesc {α β : Type} [LinearOrder β] (score : α → β) (x : α) :
    List α → List α
  | [] => [x]
  | y :: ys =>
    if score y ≤ score x then x :: y :: ys
    else y :: insertByScoreDesc score x ys

/-- Python list.sort(key=score, reverse=True): a stable descending sort by the
score projection, modelled as stable insertion sort. -/
def sortByScoreDesc {α β : Type} [LinearOrder β] (score : α → β) :
    List α → List α
  | [] => []
  | x :: xs => insertByScoreDesc score x (sortByScoreDesc score xs)

/-- EmbeddingService.find_similar_embeddings (embedding.py lines 164-193):
enumerate the corpus, keep (index, similarity) pairs whose similarity passes
`similarity >= threshold` (a NaN similarity, modelled none, fails the
comparison in numpy and is dropped), sort descending by similarity with
Python's stable sort, and truncate to top_k. -/
noncomputable def find_similar_embeddings (query_embedding : List ℝ)
    (embeddings : List (List ℝ)) (threshold : ℝ) (top_k : ℕ) : List (ℕ × ℝ) :=
  (sortByScoreDesc Prod.snd (embeddings.enum.filterMap (fun p =>
    match compute_similarity query_embedding p.2 with
    | none => none
    | some s => if threshold ≤ s then some (p.1, s) else none))).take top_k

/-- The columns of a features row that the RFP processor reads and writes
(models/feature.py): id, title, description (nullable Text, modelled as a
String with "" for missing), customer_request_count. -/
structure Feature where
  id : ℕ
  title : String
  description : String
  customer_request_count : ℕ
deriving DecidableEq, Repr

/-- RFPProcessor.find_similar_features (rfp_processor.py lines 27-58): for
every feature with a truthy description, embed "title description" through the
embedding service (passed here as the function embed), compute the raw cosine
similarity against the query embedding, keep the pairs reaching the
threshold, and sort descending by similarity (no truncation). -/
noncomputable def find_similar_features (embed : String → List ℝ)
    (embedding : List ℝ) (threshold : ℝ) (features : List Feature) :
    List (Feature × ℝ) :=
  sortByScoreDesc Prod.snd (features.filterMap (fun f =>
    if f.description = "" then none
    else if threshold ≤ cosine_similarity embedding (embed (f.title ++ " " ++ f.description)) then
      some (f, cosine_similarity embedding (embed (f.title ++ " " ++ f.description)))
    else none))

/-- Python str.strip(): drop leading and trailing whitespace. -/
def pyStrip (s : String) : String :=
  String.mk (((s.toList.dropWhile Char.isWhitespace).reverse.dropWhile
    Char.isWhitespace).reverse)

/-- Python str.lower() applied character by character. -/
def lowerString (s : String) : String :=
  String.mk (s.toList.map Char.toLower)

/-- Splitter for Python str.split() with no arguments: cut at runs of
whitespace and return only the nonempty fragments (leading and trailing
whitespace produces no fragment, so a preceding str.strip() is absorbed). -/
def splitWordsAux : List Char → List Char → List String
  | [], acc => if acc = [] then [] else [String.mk acc.reverse]
  | c :: cs, acc =>
    if c.isWhitespace then
      if acc = [] then splitWordsAux cs []
      else String.mk acc.reverse :: splitWordsAux cs []
    else splitWordsAux cs (c :: acc)

/-- question.strip().split() of _extract_feature_title (rfp_processor.py
lines 124-128). -/
def splitWords (s : String) : List String :=
  splitWordsAux s.toList []

/-- The question-word list of RFPProcessor._extract_feature_title
(rfp_processor.py line 127). -/
def question_words : List String :=
  ["can", "could", "would", "will", "do", "does", "is", "are",
   "how", "what", "when", "where", "why", "which"]

/-- The leading while-pop loop of _extract_feature_title: drop words from the
front while the lower-cased word is in the question-word list. -/
def dropQuestionWords : List String → List String
  | [] => []
  | w :: ws =>
    if question_words.contains (lowerString w) then dropQuestionWords ws
    else w :: ws

/-- re.sub applied to the final word: strip any trailing run of the characters
question mark, exclamation mark, and period. -/
def stripTrailingPunct (w : String) : String :=
  String.mk ((w.toList.reverse.dropWhile
    (fun c => c = '?' || c = '!' || c = '.')).reverse)

/-- Apply stripTrailingPunct to the last word of the list (the source mutates
words[-1]); an empty list is left unchanged. -/
def stripLastPunct (ws : List String) : List String :=
  match ws.reverse with
  | [] => []
  | w :: rest => (stripTrailingPunct w :: rest).reverse

/-- The capitalization step title[0].upper() + title[1:], applied only to a
nonempty title. -/
def capitalizeFirst (s : String) : String :=
  match s.toList with
  | [] => s
  | c :: cs => String.mk (c.toUpper :: cs)

/-- RFPProcessor._extract_feature_title (rfp_processor.py lines 120-149):
strip the question, split on whitespace (Python str.split discards empty
fragments), pop leading question words, strip trailing punctuation from the
last word, rejoin with single spaces, capitalize the first letter, truncate a
title longer than 100 characters to its first 97 plus "...", and fall back to
"Feature Request" for an empty result. -/
def extract_feature_title (question : String) : String :=
  let words := splitWords question
  let words := dropQuestionWords words
  let words := stripLastPunct words
  let title := String.intercalate " " words
  let title := capitalizeFirst title
  let title :=
    if title.length > 100 then String.mk (title.toList.take 97) ++ "..."
    else title
  if title = "" then "Feature Request" else title

/-- The columns of an rfp_qa_pairs row the processor reads and writes:
question, answer, and the feature_id link it assigns. -/
structure QAPair where
  question : String
  answer : String
  feature_id : Option ℕ
deriving DecidableEq, Repr

/-- RFPProcessor._create_feature_from_qa (rfp_processor.py lines 75-118):
build a new Feature whose title is extracted from the question, whose
description is the stripped answer, and whose customer_request_count starts at
1 when a customer is attached and 0 otherwise.  fresh_id stands for the id the
database assigns at flush. -/
def create_feature_from_qa (qa : QAPair) (has_customer : Bool) (fresh_id : ℕ) :
    Feature :=
  { id := fresh_id
    title := extract_feature_title qa.question
    description := pyStrip qa.answer
    customer_request_count := if has_customer then 1 else 0 }

/-- The attach-or-create step of RFPProcessor.process_document for one Q&A
pair (rfp_processor.py lines 206-256, with auto_link_features and
generate_feature_suggestions true): embed "question answer", search similar
features, and either link to the best match and increment its
customer_request_count, or create a new feature.  Returns the updated feature
store, the updated Q&A pair, and whether a new feature was created. -/
noncomputable def process_qa_pair (embed : String → List ℝ) (threshold : ℝ)
    (features : List Feature) (qa : QAPair) (has_customer : Bool)
    (fresh_id : ℕ) : List Feature × QAPair × Bool :=
  match find_similar_features embed (embed (qa.question ++ " " ++ qa.answer))
      threshold features with
  | (best_feature, _similarity_score) :: _ =>
    (features.map (fun f =>
      if f.id = best_feature.id then
        { f with customer_request_count := f.customer_request_count + 1 }
      else f),
     { qa with feature_id := some best_feature.id },
     false)
  | [] =>
    (features ++ [create_feature_from_qa qa has_customer fresh_id],
     { qa with feature_id := some (create_feature_from_qa qa has_customer fresh_id).id },
     true)

/-- Claim C1, counterexample: the final score is not clamped to [0, 100] when
an upstream component is out of range.  A market-opportunity row with a
negative competitors_not_providing count (the Integer column carries no lower
bound) yields a market component of -1000 and a final score of -177.5: the
source only applies min(final_score, 100.0) and never clamps from below. -/
theorem C1_counterexample :
    (calculate_priority_score
      { requests := []
        trend := none
        business := none
        market := some { total_competitors_analyzed := some 1
                         competitors_not_providing := -10 } }).final_score < 0 := by
  norm_num [calculate_priority_score, calculate_customer_impact_score,
    calculate_trend_alignment_score, calculate_business_impact_score,
    calculate_market_opportunity_score, calculate_segment_diversity_score, WEIGHTS]

/-- Claim C1 (amended): the snapshot's final score equals the weighted sum of
the five component scores with the weight vector (0.30, 0.20, 0.25, 0.20,
0.05), whose entries sum to exactly 1.00, clamped from above to at most 100;
no clamp from below is applied, so an out-of-range negative component can
drive the final score below 0.  The snapshot stores the weight vector used. -/
theorem C1_final_score_weighted_sum (inp : ScoringInputs) :
    (calculate_priority_score inp).final_score =
      min ((calculate_priority_score inp).customer_impact_score * WEIGHTS.customer_impact +
           (calculate_priority_score inp).trend_alignment_score * WEIGHTS.trend_alignment +
           (calculate_priority_score inp).business_impact_score * WEIGHTS.business_impact +
           (calculate_priority_score inp).market_opportunity_score * WEIGHTS.market_opportunity +
           (calculate_priority_score inp).segment_diversity_score * WEIGHTS.segment_diversity)
          100 ∧
    WEIGHTS.customer_impact + WEIGHTS.trend_alignment + WEIGHTS.business_impact +
      WEIGHTS.market_opportunity + WEIGHTS.segment_diversity = 1 ∧
    (calculate_priority_score inp).final_score ≤ 100 ∧
    (calculate_priority_score inp).weights_used = WEIGHTS := by
  refine ⟨by norm_num [calculate_priority_score], by norm_num [WEIGHTS], ?_, rfl⟩
  simp only [calculate_priority_score]
  exact le_trans (min_le_right _ _) (by norm_num)

/-- Claim C2, counterexample: scoring a feature with no signals and no linked
requests yields a final score of 32.5, not 30.0 as claimed (the spec's own
arithmetic is wrong: 0.30*0 + 0.20*50 + 0.25*50 + 0.20*50 + 0.05*0 = 32.5). -/
theorem C2_counterexample :
    (calculate_priority_score
      { requests := [], trend := none, business := none, market := none }).final_score
      ≠ 30 := by
  norm_num [calculate_priority_score, calculate_customer_impact_score,
    calculate_trend_alignment_score, calculate_business_impact_score,
    calculate_market_opportunity_score, calculate_segment_diversity_score, WEIGHTS]

/-- Claim C2 (amended): scoring a feature with zero analysis signals and zero
linked requests yields component scores (customer impact 0, trend alignment
50, business impact 50, market opportunity 50, segment diversity 0) and a
final score of exactly 32.5. -/
theorem C2_default_absorption :
    (calculate_priority_score
      { requests := [], trend := none, business := none, market := none }).final_score
        = 32.5 ∧
    (calculate_priority_score
      { requests := [], trend := none, business := none, market := none }).customer_impact_score
        = 0 ∧
    (calculate_priority_score
      { requests := [], trend := none, business := none, market := none }).trend_alignment_score
        = 50 ∧
    (calculate_priority_score
      { requests := [], trend := none, business := none, market := none }).business_impact_score
        = 50 ∧
    (calculate_priority_score
      { requests := [], trend := none, business := none, market := none }).market_opportunity_score
        = 50 ∧
    (calculate_priority_score
      { requests := [], trend := none, business := none, market := none }).segment_diversity_score
        = 0 := by
  norm_num [calculate_priority_score, calculate_customer_impact_score,
    calculate_trend_alignment_score, calculate_business_impact_score,
    calculate_market_opportunity_score, calculate_segment_diversity_score, WEIGHTS]

/-- Claim C10: a latest trend-analysis (respectively business-impact-analysis)
row whose score column is 0 or null yields the neutral default 50, exactly as
if the row were absent, because the Python truthiness test treats 0 and None
alike. -/
theorem C10_zero_score_neutral_default :
    calculate_trend_alignment_score (some { trend_score := some 0 }) =
      calculate_trend_alignment_score none ∧
    calculate_trend_alignment_score (some { trend_score := none }) =
      calculate_trend_alignment_score none ∧
    calculate_trend_alignment_score none = 50 ∧
    calculate_business_impact_score (some { impact_score := some 0 }) =
      calculate_business_impact_score none ∧
    calculate_business_impact_score (some { impact_score := none }) =
      calculate_business_impact_score none ∧
    calculate_business_impact_score none = 50 := by
  norm_num [calculate_trend_alignment_score, calculate_business_impact_score]

/-- Claim C6, counterexample: the title heuristic does not strip the word
"we" (the question-word list is can/could/would/will/do/does/is/are/how/what/
when/where/why/which), so "Can we export reports to PDF?" does not yield
"Export reports to PDF". -/
theorem C6_counterexample :
    extract_feature_title "Can we export reports to PDF?" ≠ "Export reports to PDF" := by
  decide

/-- Claim C6 (amended): the title-extraction heuristic strips leading words
from the fixed interrogative list (which does not contain "we"), strips
trailing punctuation from the last word, capitalizes the first letter, and
truncates any title longer than 100 characters to 97 characters plus an
ellipsis, so the result never exceeds 100 characters; the question "Can we
export reports to PDF?" yields "We export reports to PDF". -/
theorem C6_title_extraction :
    extract_feature_title "Can we export reports to PDF?" = "We export reports to PDF" ∧
    ∀ question : String, (extract_feature_title question).length ≤ 100 := by
  refine ⟨by decide, ?_⟩
  intro question
  simp only [extract_feature_title]
  set t := capitalizeFirst (String.intercalate " "
    (stripLastPunct (dropQuestionWords (splitWords question)))) with ht
  by_cases h100 : t.length > 100
  · simp only [h100, if_true]
    by_cases hempty : String.mk (t.toList.take 97) ++ "..." = ""
    · simp only [hempty, if_true]
      decide
    · simp only [hempty, if_false]
      rw [String.length_append]
      have htake : (String.mk (t.toList.take 97)).length = (t.toList.take 97).length := rfl
      rw [htake]
      have hd : (t.toList.take 97).length ≤ 97 := by
        rw [List.length_take]
        exact min_le_left _ _
      have he : ("..." : String).length = 3 := rfl
      omega
  · simp only [h100, if_false]
    by_cases hempty : t = ""
    · simp only [hempty, if_true]
      decide
    · simp only [hempty, if_false]
      omega

/-- Membership in the insertion step: exactly the inserted element is added. -/
theorem mem_insertByScoreDesc {α β : Type} [LinearOrder β] (score : α → β)
    (x a : α) : ∀ l : List α, a ∈ insertByScoreDesc score x l ↔ a = x ∨ a ∈ l
  | [] => by simp [insertByScoreDesc]
  | y :: ys => by
    simp only [insertByScoreDesc]
    by_cases h : score y ≤ score x
    · simp [h]
    · simp only [h, if_false, List.mem_cons, mem_insertByScoreDesc score x a ys]
      tauto

/-- The insertion step permutes the element onto the front. -/
theorem insertByScoreDesc_perm {α β : Type} [LinearOrder β] (score : α → β)
    (x : α) : ∀ l : List α, (insertByScoreDesc score x l).Perm (x :: l)
  | [] => List.Perm.refl _
  | y :: ys => by
    simp only [insertByScoreDesc]
    by_cases h : score y ≤ score x
    · simp [h]
    · simp only [h, if_false]
      exact ((insertByScoreDesc_perm score x ys).cons y).trans (List.Perm.swap x y ys)

/-- The stable descending sort is a permutation of its input. -/
theorem sortByScoreDesc_perm {α β : Type} [LinearOrder β] (score : α → β) :
    ∀ l : List α, (sortByScoreDesc score l).Perm l
  | [] => List.Perm.refl _
  | x :: xs => by
    simp only [sortByScoreDesc]
    exact (insertByScoreDesc_perm score x (sortByScoreDesc score xs)).trans
      ((sortByScoreDesc_perm score xs).cons x)

/-- Inserting into a descending-sorted list keeps it descending-sorted. -/
theorem insertByScoreDesc_pairwise {α β : Type} [LinearOrder β] (score : α → β)
    (x : α) : ∀ l : List α, l.Pairwise (fun a b => score b ≤ score a) →
      (insertByScoreDesc score x l).Pairwise (fun a b => score b ≤ score a)
  | [] => fun _ => by simp [insertByScoreDesc]
  | y :: ys => fun h => by
    rcases List.pairwise_cons.1 h with ⟨hy, hys⟩
    simp only [insertByScoreDesc]
    by_cases hc : score y ≤ score x
    · rw [if_pos hc]
      refine List.pairwise_cons.2 ⟨?_, h⟩
      intro z hz
      rcases List.mem_cons.1 hz with rfl | hz'
      · exact hc
      · exact le_trans (hy z hz') hc
    · rw [if_neg hc]
      refine List.pairwise_cons.2 ⟨?_, insertByScoreDesc_pairwise score x ys hys⟩
      intro z hz
      rcases (mem_insertByScoreDesc score x z ys).1 hz with rfl | hz'
      · exact le_of_not_le hc
      · exact hy z hz'

/-- The stable descending sort produces a descending-sorted list. -/
theorem sortByScoreDesc_pairwise {α β : Type} [LinearOrder β] (score : α → β) :
    ∀ l : List α, (sortByScoreDesc score l).Pairwise (fun a b => score b ≤ score a)
  | [] => List.Pairwise.nil
  | x :: xs =>
    insertByScoreDesc_pairwise score x _ (sortByScoreDesc_pairwise score xs)

/-- Stability of the insertion step, phrased lexicographically: if the list is
sorted by descending score with ties in strictly increasing tag order, and the
inserted element has a smaller tag than any resident with an equal score, the
result keeps that shape. -/
theorem insertByScoreDesc_pairwise_lex {α β γ : Type} [LinearOrder β]
    [LinearOrder γ] (score : α → β) (tag : α → γ) (x : α) :
    ∀ l : List α,
      l.Pairwise (fun a b => score b < score a ∨ (score a = score b ∧ tag a < tag b)) →
      (∀ y ∈ l, score y = score x → tag x < tag y) →
      (insertByScoreDesc score x l).Pairwise
        (fun a b => score b < score a ∨ (score a = score b ∧ tag a < tag b))
  | [] => fun _ _ => by simp [insertByScoreDesc]
  | y :: ys => fun hp hx => by
    rcases List.pairwise_cons.1 hp with ⟨hy, hys⟩
    simp only [insertByScoreDesc]
    by_cases hc : score y ≤ score x
    · rw [if_pos hc]
      refine List.pairwise_cons.2 ⟨?_, hp⟩
      intro z hz
      rcases List.mem_cons.1 hz with rfl | hz'
      · rcases lt_or_eq_of_le hc with h | h
        · exact Or.inl h
        · exact Or.inr ⟨h.symm, hx z (List.mem_cons_self z ys) h⟩
      · have hzy : score z ≤ score y := by
          rcases hy z hz' with h | h
          · exact le_of_lt h
          · exact le_of_eq h.1.symm
        rcases lt_or_eq_of_le (le_trans hzy hc) with h | h
        · exact Or.inl h
        · exact Or.inr ⟨h.symm, hx z (List.mem_cons_of_mem y hz') h⟩
    · rw [if_neg hc]
      refine List.pairwise_cons.2 ⟨?_, ?_⟩
      · intro z hz
        rcases (mem_insertByScoreDesc score x z ys).1 hz with rfl | hz'
        · exact Or.inl (lt_of_not_le hc)
        · exact hy z hz'
      · exact insertByScoreDesc_pairwise_lex score tag x ys hys
          (fun z hz hsz => hx z (List.mem_cons_of_mem y hz) hsz)

/-- Stability of the stable descending sort: on an input whose tags strictly
increase (e.g. enumeration indices or creation-ordered ids), the output is
sorted by descending score with ties in increasing tag order. -/
theorem sortByScoreDesc_pairwise_lex {α β γ : Type} [LinearOrder β]
    [LinearOrder γ] (score : α → β) (tag : α → γ) :
    ∀ l : List α, l.Pairwise (fun a b => tag a < tag b) →
      (sortByScoreDesc score l).Pairwise
        (fun a b => score b < score a ∨ (score a = score b ∧ tag a < tag b))
  | [] => fun _ => by simp [sortByScoreDesc]
  | x :: xs => fun h => by
    rcases List.pairwise_cons.1 h with ⟨hx, hxs⟩
    simp only [sortByScoreDesc]
    refine insertByScoreDesc_pairwise_lex score tag x _
      (sortByScoreDesc_pairwise_lex score tag xs hxs) ?_
    intro y hy _
    exact hx y (((sortByScoreDesc_perm score xs).mem_iff).1 hy)

/-- Filtering by a score-upward-closed predicate commutes with the insertion
step on a descending-sorted list. -/
theorem insertByScoreDesc_filter {α β : Type} [LinearOrder β] (score : α → β)
    (p : α → Bool) (hp : ∀ a b, score b ≤ score a → p b = true → p a = true)
    (x : α) : ∀ m : List α, m.Pairwise (fun a b => score b ≤ score a) →
      (insertByScoreDesc score x m).filter p =
        if p x then insertByScoreDesc score x (m.filter p) else m.filter p
  | [] => fun _ => by
    by_cases hpx : p x <;> simp [insertByScoreDesc, List.filter_cons, hpx]
  | y :: ys => fun hm => by
    rcases List.pairwise_cons.1 hm with ⟨hy, hys⟩
    simp only [insertByScoreDesc]
    by_cases hc : score y ≤ score x
    · simp only [if_pos hc]
      by_cases hpx : p x
      · by_cases hpy : p y
        · simp [List.filter_cons, hpx, hpy, insertByScoreDesc, hc]
        · have hall : ys.filter p = [] := by
            rw [List.filter_eq_nil_iff]
            intro z hz hpz
            exact absurd (hp y z (hy z hz) hpz) (by simpa using hpy)
          simp [List.filter_cons, hpx, hpy, hall, insertByScoreDesc]
      · simp [List.filter_cons, hpx]
    · simp only [if_neg hc]
      have ih := insertByScoreDesc_filter score p hp x ys hys
      by_cases hpx : p x
      · have hpy : p y = true := hp y x (le_of_not_le hc) hpx
        simp [List.filter_cons, hpx, hpy, ih, insertByScoreDesc, hc]
      · simp [List.filter_cons, hpx, ih]

/-- Filtering by a score-upward-closed predicate commutes with the stable
descending sort. -/
theorem sortByScoreDesc_filter {α β : Type} [LinearOrder β] (score : α → β)
    (p : α → Bool) (hp : ∀ a b, score b ≤ score a → p b = true → p a = true) :
    ∀ l : List α,
      sortByScoreDesc score (l.filter p) = (sortByScoreDesc score l).filter p
  | [] => rfl
  | x :: xs => by
    have ih := sortByScoreDesc_filter score p hp xs
    have hcomm := insertByScoreDesc_filter score p hp x
      (sortByScoreDesc score xs) (sortByScoreDesc_pairwise score xs)
    by_cases hpx : p x
    · conv_lhs => rw [List.filter_cons, if_pos hpx]
      simp only [sortByScoreDesc]
      rw [ih, hcomm, if_pos hpx]
    · conv_lhs => rw [List.filter_cons, if_neg hpx]
      simp only [sortByScoreDesc]
      rw [ih, hcomm, if_neg hpx]

/-- In a descending-sorted list, the elements passing a score-upward-closed
predicate form a prefix: the list splits as its filtered part followed by a
suffix. -/
theorem filter_append_of_sorted {α β : Type} [LinearOrder β] (score : α → β)
    (p : α → Bool) (hp : ∀ a b, score b ≤ score a → p b = true → p a = true) :
    ∀ m : List α, m.Pairwise (fun a b => score b ≤ score a) →
      ∃ s : List α, m = m.filter p ++ s
  | [] => fun _ => ⟨[], rfl⟩
  | y :: ys => fun hm => by
    rcases List.pairwise_cons.1 hm with ⟨hy, hys⟩
    by_cases hpy : p y
    · rcases filter_append_of_sorted score p hp ys hys with ⟨s, hs⟩
      refine ⟨s, ?_⟩
      rw [List.filter_cons, if_pos hpy, List.cons_append]
      exact congrArg (y :: ·) hs
    · have hall : ys.filter p = [] := by
        rw [List.filter_eq_nil_iff]
        intro z hz hpz
        exact absurd (hp y z (hy z hz) hpz) (by simpa using hpy)
      refine ⟨y :: ys, ?_⟩
      simp [List.filter_cons, hpy, hall]

/-- Membership in a take is preserved when a suffix is appended behind. -/
theorem mem_take_append {α : Type} (k : ℕ) (a : α) (l s : List α)
    (h : a ∈ l.take k) : a ∈ (l ++ s).take k := by
  rw [List.take_append_eq_append_take]
  exact List.mem_append_left _ h

/-- The enumeration of a list has strictly increasing indices. -/
theorem enum_pairwise_fst {α : Type} (l : List α) :
    l.enum.Pairwise (fun a b => a.1 < b.1) := by
  rw [List.pairwise_iff_getElem]
  intro i j hi hj hij
  rw [List.getElem_enum, List.getElem_enum]
  exact hij

/-- The dot product against an empty first operand is zero. -/
theorem dotList_nil (w : List ℝ) : dotList [] w = 0 := rfl

/-- A vector's dot product with itself is nonnegative (a sum of squares). -/
theorem dotList_nonneg : ∀ v : List ℝ, 0 ≤ dotList v v
  | [] => le_refl 0
  | a :: v => by
    have h := dotList_nonneg v
    simp only [dotList]
    nlinarith [mul_self_nonneg a]

/-- Cauchy-Schwarz for the list dot product, in squared form. -/
theorem cauchy_schwarz_dotList :
    ∀ v w : List ℝ, (dotList v w)^2 ≤ dotList v v * dotList w w
  | [], w => by
    simp [dotList_nil]
  | a :: v, [] => by
    have h : dotList (a :: v) ([] : List ℝ) = 0 := rfl
    have h2 : dotList ([] : List ℝ) ([] : List ℝ) = 0 := rfl
    rw [h, h2]
    simp
  | a :: v, b :: w => by
    have ih := cauchy_schwarz_dotList v w
    have hv := dotList_nonneg v
    have hw := dotList_nonneg w
    simp only [dotList]
    rcases eq_or_lt_of_le hw with hB0 | hBpos
    · have hd : dotList v w = 0 := by
        have h1 : (dotList v w)^2 ≤ 0 := by nlinarith [ih]
        have h2 : (dotList v w)^2 = 0 := le_antisymm h1 (sq_nonneg _)
        exact pow_eq_zero_iff (by norm_num) |>.1 h2
      rw [hd]
      nlinarith [mul_nonneg hv (mul_self_nonneg b), sq_nonneg (a*b)]
    · nlinarith [sq_nonneg (a * dotList w w - b * dotList v w),
        mul_nonneg (sq_nonneg b) (sub_nonneg.mpr ih),
        mul_nonneg (le_of_lt hBpos) (sub_nonneg.mpr ih), hBpos]

/-- Dotting the entrywise divisions equals the dot product divided by the
product of the divisors (the normalization step of compute_similarity). -/
theorem dot_map_div : ∀ (v w : List ℝ) (a b : ℝ),
    dotList (v.map (· / a)) (w.map (· / b)) = dotList v w / (a * b)
  | [], w, a, b => by
    simp only [List.map_nil, dotList_nil, zero_div]
  | x :: v, [], a, b => by
    have h1 : dotList ((x :: v).map (· / a)) (([] : List ℝ).map (· / b)) = 0 := rfl
    have h2 : dotList (x :: v) ([] : List ℝ) = 0 := rfl
    rw [h1, h2, zero_div]
  | x :: v, y :: w, a, b => by
    simp only [List.map_cons, dotList]
    rw [dot_map_div v w a b, div_mul_div_comm, div_add_div_same]

/-- The Euclidean norm is nonnegative. -/
theorem l2norm_nonneg (v : List ℝ) : 0 ≤ l2norm v :=
  Real.sqrt_nonneg _

/-- The square of the Euclidean norm recovers the self dot product. -/
theorem sq_l2norm (v : List ℝ) : l2norm v ^ 2 = dotList v v :=
  Real.sq_sqrt (dotList_nonneg v)

/-- The raw cosine ratio of two vectors with nonzero norms lies in [-1, 1]. -/
theorem cosine_ratio_bounds (v w : List ℝ) (hv : l2norm v ≠ 0)
    (hw : l2norm w ≠ 0) :
    -1 ≤ dotList v w / (l2norm v * l2norm w) ∧
      dotList v w / (l2norm v * l2norm w) ≤ 1 := by
  have hv' : 0 < l2norm v := lt_of_le_of_ne (l2norm_nonneg v) (Ne.symm hv)
  have hw' : 0 < l2norm w := lt_of_le_of_ne (l2norm_nonneg w) (Ne.symm hw)
  have hprod : 0 < l2norm v * l2norm w := mul_pos hv' hw'
  have hcs := cauchy_schwarz_dotList v w
  have hsq : (l2norm v * l2norm w)^2 = dotList v v * dotList w w := by
    rw [mul_pow, sq_l2norm, sq_l2norm]
  constructor
  · rw [le_div_iff₀ hprod]
    nlinarith [hcs, hsq, hprod, sq_nonneg (dotList v w + l2norm v * l2norm w)]
  · rw [div_le_one hprod]
    nlinarith [hcs, hsq, hprod, sq_nonneg (dotList v w - l2norm v * l2norm w)]

/-- RFPProcessor._cosine_similarity always lies in [-1, 1] (including the
guarded zero-norm case, which returns 0). -/
theorem cosine_similarity_bounds (v w : List ℝ) :
    -1 ≤ cosine_similarity v w ∧ cosine_similarity v w ≤ 1 := by
  unfold cosine_similarity
  split_ifs with h
  · norm_num
  · push_neg at h
    exact cosine_ratio_bounds v w h.1 h.2

/-- When EmbeddingService.compute_similarity produces a number (no NaN), that
number is the raw cosine rescaled via (cos+1)/2 and lies in [0, 1]. -/
theorem compute_similarity_spec (v w : List ℝ) (s : ℝ)
    (h : compute_similarity v w = some s) :
    s = (cosine_similarity v w + 1) / 2 ∧ 0 ≤ s ∧ s ≤ 1 := by
  unfold compute_similarity at h
  split_ifs at h with hz
  push_neg at hz
  have hs : (dotList (v.map (· / l2norm v)) (w.map (· / l2norm w)) + 1) / 2 = s :=
    Option.some.inj h
  rw [dot_map_div] at hs
  have hcos : cosine_similarity v w = dotList v w / (l2norm v * l2norm w) := by
    unfold cosine_similarity
    rw [if_neg (not_or.mpr ⟨hz.1, hz.2⟩)]
  rcases cosine_ratio_bounds v w hz.1 hz.2 with ⟨hlo, hhi⟩
  refine ⟨?_, ?_, ?_⟩
  · rw [hcos]
    exact hs.symm
  · rw [← hs]
    linarith
  · rw [← hs]
    linarith

/-- Characterization of the per-candidate guard inside
find_similar_embeddings: a produced pair carries the corpus index, a
similarity passing the threshold, and that similarity is the (non-NaN)
compute_similarity output. -/
theorem similarity_guard_some (query : List ℝ) (t : ℝ) (p : ℕ × List ℝ)
    (c : ℕ × ℝ)
    (h : (match compute_similarity query p.2 with
          | none => none
          | some s => if t ≤ s then some (p.1, s) else none) = some c) :
    c.1 = p.1 ∧ t ≤ c.2 ∧ compute_similarity query p.2 = some c.2 := by
  cases hcs : compute_similarity query p.2 with
  | none =>
    simp only [hcs] at h
    exact Option.noConfusion h
  | some s =>
    simp only [hcs] at h
    by_cases ht : t ≤ s
    · rw [if_pos ht] at h
      obtain rfl : c = (p.1, s) := (Option.some.inj h).symm
      exact ⟨rfl, ht, rfl⟩
    · rw [if_neg ht] at h
      exact absurd h (by simp)

/-- Characterization of the per-feature guard inside find_similar_features:
a produced pair carries the feature itself and its raw cosine similarity,
which passes the threshold, and the feature has a truthy description. -/
theorem feature_guard_some (embed : String → List ℝ) (emb : List ℝ) (t : ℝ)
    (f : Feature) (c : Feature × ℝ)
    (h : (if f.description = "" then none
          else if t ≤ cosine_similarity emb (embed (f.title ++ " " ++ f.description)) then
            some (f, cosine_similarity emb (embed (f.title ++ " " ++ f.description)))
          else none) = some c) :
    c.1 = f ∧ t ≤ c.2 ∧
      c.2 = cosine_similarity emb (embed (f.title ++ " " ++ f.description)) := by
  split_ifs at h with hd ht
  · obtain rfl : c = (f, cosine_similarity emb (embed (f.title ++ " " ++ f.description))) :=
      (Option.some.inj h).symm
    exact ⟨rfl, ht, rfl⟩

/-- Claim C4 (amended): neither similarity routine raises on a zero-norm
input; RFPProcessor._cosine_similarity has an explicit guard and returns 0.0,
but EmbeddingService.compute_similarity has no guard: dividing by the zero
norm propagates NaN (modelled none), so its result is not 0.0. -/
theorem C4_zero_norm_behavior (v w : List ℝ)
    (h : l2norm v = 0 ∨ l2norm w = 0) :
    cosine_similarity v w = 0 ∧ compute_similarity v w = none := by
  constructor
  · unfold cosine_similarity
    rw [if_pos h]
    norm_num
  · unfold compute_similarity
    rw [if_pos h]

/-- Claim C4, witness: the zero vector against a unit vector exercises both
zero-norm branches. -/
theorem C4_zero_norm_behavior_witness :
    (l2norm [(0 : ℝ)] = 0 ∨ l2norm [(1 : ℝ)] = 0) ∧
    (cosine_similarity [(0 : ℝ)] [(1 : ℝ)] = 0 ∧
     compute_similarity [(0 : ℝ)] [(1 : ℝ)] = none) := by
  have hz : l2norm [(0 : ℝ)] = 0 := by
    unfold l2norm
    rw [show dotList [(0 : ℝ)] [(0 : ℝ)] = 0 by simp [dotList], Real.sqrt_zero]
  exact ⟨Or.inl hz, C4_zero_norm_behavior [0] [1] (Or.inl hz)⟩

/-- Claim C4, counterexample: EmbeddingService.compute_similarity on a
zero-norm first argument yields NaN (modelled none), which is not the claimed
0.0, even though no exception is raised. -/
theorem C4_counterexample :
    compute_similarity [(0 : ℝ)] [(1 : ℝ)] = none ∧
    (none : Option ℝ) ≠ some 0 := by
  have hz : l2norm [(0 : ℝ)] = 0 := by
    unfold l2norm
    rw [show dotList [(0 : ℝ)] [(0 : ℝ)] = 0 by simp [dotList], Real.sqrt_zero]
  constructor
  · unfold compute_similarity
    rw [if_pos (Or.inl hz)]
  · simp

/-- Claim C3 (amended): a numeric (non-NaN) EmbeddingService.compute_similarity
result equals the raw cosine rescaled to [0,1] via (cos+1)/2, and every
candidate returned by find_similar_embeddings has a score in [0,1] reaching
the threshold; RFPProcessor.find_similar_features, however, ranks and filters
by the raw cosine, so its candidate scores reach the threshold but lie in
[-1,1] and are not rescaled. -/
theorem C3_similarity_rescaling :
    (∀ (v w : List ℝ) (s : ℝ), compute_similarity v w = some s →
      s = (cosine_similarity v w + 1) / 2 ∧ 0 ≤ s ∧ s ≤ 1) ∧
    (∀ (query : List ℝ) (embeddings : List (List ℝ)) (t : ℝ) (k : ℕ)
      (c : ℕ × ℝ), c ∈ find_similar_embeddings query embeddings t k →
        t ≤ c.2 ∧ 0 ≤ c.2 ∧ c.2 ≤ 1) ∧
    (∀ (embed : String → List ℝ) (emb : List ℝ) (t : ℝ)
      (features : List Feature) (c : Feature × ℝ),
      c ∈ find_similar_features embed emb t features →
        t ≤ c.2 ∧ -1 ≤ c.2 ∧ c.2 ≤ 1) := by
  refine ⟨compute_similarity_spec, ?_, ?_⟩
  · intro query embeddings t k c hc
    unfold find_similar_embeddings at hc
    have h1 := List.take_subset _ _ hc
    have h2 := ((sortByScoreDesc_perm Prod.snd _).mem_iff).1 h1
    rcases List.mem_filterMap.1 h2 with ⟨p, _hp, hguard⟩
    rcases similarity_guard_some query t p c hguard with ⟨_, ht, hcs⟩
    rcases compute_similarity_spec query p.2 c.2 hcs with ⟨_, h0, h1'⟩
    exact ⟨ht, h0, h1'⟩
  · intro embed emb t features c hc
    unfold find_similar_features at hc
    have h2 := ((sortByScoreDesc_perm Prod.snd _).mem_iff).1 hc
    rcases List.mem_filterMap.1 h2 with ⟨f, _hf, hguard⟩
    rcases feature_guard_some embed emb t f c hguard with ⟨_, ht, hcv⟩
    rcases cosine_similarity_bounds emb (embed (f.title ++ " " ++ f.description))
      with ⟨hlo, hhi⟩
    refine ⟨ht, ?_, ?_⟩
    · rw [hcv]
      exact hlo
    · rw [hcv]
      exact hhi

/-- Claim C3, witness: two identical unit vectors have cosine 1 and rescaled
similarity (1+1)/2 = 1, exercising the rescaling equality and bounds. -/
theorem C3_similarity_rescaling_witness :
    compute_similarity [(1 : ℝ)] [(1 : ℝ)] = some 1 ∧
    ((1 : ℝ) = (cosine_similarity [(1 : ℝ)] [(1 : ℝ)] + 1) / 2 ∧
     (0 : ℝ) ≤ 1 ∧ (1 : ℝ) ≤ 1) := by
  have h1 : l2norm [(1 : ℝ)] = 1 := by
    unfold l2norm
    rw [show dotList [(1 : ℝ)] [(1 : ℝ)] = 1 by simp [dotList], Real.sqrt_one]
  have hsome : compute_similarity [(1 : ℝ)] [(1 : ℝ)] = some 1 := by
    unfold compute_similarity
    rw [if_neg (by rw [h1]; norm_num)]
    rw [dot_map_div, h1, show dotList [(1 : ℝ)] [(1 : ℝ)] = 1 by simp [dotList]]
    norm_num
  exact ⟨hsome, C3_similarity_rescaling.1 [1] [1] 1 hsome⟩

/-- Claim C3, counterexample: the RFP processor score is the raw cosine, not
the rescaled one: opposite unit vectors give a candidate with score -1
(rescaling would give 0), so a returned candidate score lies outside [0,1]. -/
theorem C3_counterexample :
    (({ id := 0, title := "A", description := "d",
        customer_request_count := 0 } : Feature), (-1 : ℝ)) ∈
      find_similar_features (fun _ => [(-1 : ℝ)]) [(1 : ℝ)] (-1)
        [{ id := 0, title := "A", description := "d",
           customer_request_count := 0 }] ∧
    ¬(0 ≤ (-1 : ℝ)) := by
  have h1 : l2norm [(1 : ℝ)] = 1 := by
    unfold l2norm
    rw [show dotList [(1 : ℝ)] [(1 : ℝ)] = 1 by simp [dotList], Real.sqrt_one]
  have h2 : l2norm [(-1 : ℝ)] = 1 := by
    unfold l2norm
    rw [show dotList [(-1 : ℝ)] [(-1 : ℝ)] = 1 by simp [dotList], Real.sqrt_one]
  have hcos : cosine_similarity [(1 : ℝ)] [(-1 : ℝ)] = -1 := by
    unfold cosine_similarity
    rw [if_neg (by rw [h1, h2]; norm_num)]
    rw [h1, h2, show dotList [(1 : ℝ)] [(-1 : ℝ)] = -1 by simp [dotList]]
    norm_num
  refine ⟨?_, by norm_num⟩
  unfold find_similar_features
  refine ((sortByScoreDesc_perm Prod.snd _).mem_iff).2 ?_
  rw [List.mem_filterMap]
  refine ⟨{ id := 0, title := "A", description := "d",
            customer_request_count := 0 }, List.mem_singleton_self _, ?_⟩
  rw [if_neg (by decide)]
  rw [show ((fun _ => [(-1 : ℝ)]) (("A" : String) ++ " " ++ "d")) = [(-1 : ℝ)] from rfl]
  rw [hcos, if_pos (le_refl (-1 : ℝ))]

/-- The threshold test inside find_similar_embeddings factors as a filter over
the unguarded candidate list: keeping (index, similarity) pairs whose
similarity passes the threshold equals filtering all non-NaN candidate pairs
by the threshold. -/
theorem similarities_eq_filter (query : List ℝ) (t : ℝ) :
    ∀ L : List (ℕ × List ℝ),
      (L.filterMap (fun p => match compute_similarity query p.2 with
        | none => none
        | some s => if t ≤ s then some (p.1, s) else none))
      = (L.filterMap (fun p => (compute_similarity query p.2).map
          (fun s => (p.1, s)))).filter (fun c => decide (t ≤ c.2))
  | [] => rfl
  | p :: L => by
    have ih := similarities_eq_filter query t L
    cases hcs : compute_similarity query p.2 with
    | none =>
      simp only [List.filterMap_cons, hcs, Option.map_none']
      exact ih
    | some s =>
      simp only [List.filterMap_cons, hcs, Option.map_some']
      by_cases ht : t ≤ s
      · simp [ht, List.filter_cons, ih]
      · simp [ht, List.filter_cons, ih]

/-- Claim C8: find_similar_embeddings returns at most top_k candidates, sorted
by strictly descending similarity except that ties keep ascending corpus
position (Python's sort is stable, and candidates are generated in
enumeration order); find_similar_features likewise returns candidates sorted
descending with ties in the input order of the feature list, so when the
feature list is passed in creation order (strictly increasing ids) ties are
broken by the earliest-created feature. -/
theorem C8_search_ordering (query : List ℝ) (embeddings : List (List ℝ))
    (threshold : ℝ) (top_k : ℕ) (embed : String → List ℝ) (emb : List ℝ)
    (features : List Feature)
    (hids : features.Pairwise (fun f g => f.id < g.id)) :
    (find_similar_embeddings query embeddings threshold top_k).length ≤ top_k ∧
    (find_similar_embeddings query embeddings threshold top_k).Pairwise
      (fun a b => b.2 < a.2 ∨ (a.2 = b.2 ∧ a.1 < b.1)) ∧
    (find_similar_features embed emb threshold features).Pairwise
      (fun a b => b.2 < a.2 ∨ (a.2 = b.2 ∧ a.1.id < b.1.id)) := by
  refine ⟨?_, ?_, ?_⟩
  · unfold find_similar_embeddings
    exact List.length_take_le _ _
  · unfold find_similar_embeddings
    have hin : (embeddings.enum.filterMap (fun p =>
        match compute_similarity query p.2 with
        | none => none
        | some s => if threshold ≤ s then some (p.1, s) else none)).Pairwise
        (fun a b => a.1 < b.1) := by
      rw [List.pairwise_filterMap]
      refine (enum_pairwise_fst embeddings).imp ?_
      intro a b hab c hc c' hc'
      have g1 := similarity_guard_some query threshold a c (Option.mem_def.1 hc)
      have g2 := similarity_guard_some query threshold b c' (Option.mem_def.1 hc')
      rw [g1.1, g2.1]
      exact hab
    exact (sortByScoreDesc_pairwise_lex Prod.snd Prod.fst _ hin).sublist
      (List.take_sublist _ _)
  · unfold find_similar_features
    have hin : (features.filterMap (fun f =>
        if f.description = "" then none
        else if threshold ≤ cosine_similarity emb (embed (f.title ++ " " ++ f.description)) then
          some (f, cosine_similarity emb (embed (f.title ++ " " ++ f.description)))
        else none)).Pairwise (fun a b => a.1.id < b.1.id) := by
      rw [List.pairwise_filterMap]
      refine hids.imp ?_
      intro a b hab c hc c' hc'
      have g1 := feature_guard_some embed emb threshold a c (Option.mem_def.1 hc)
      have g2 := feature_guard_some embed emb threshold b c' (Option.mem_def.1 hc')
      rw [g1.1, g2.1]
      exact hab
    exact sortByScoreDesc_pairwise_lex Prod.snd (fun c : Feature × ℝ => c.1.id) _ hin

/-- Claim C8, witness: a singleton creation-ordered feature list discharges
the increasing-id hypothesis at a concrete input. -/
theorem C8_search_ordering_witness :
    ([({ id := 0, title := "A", description := "d",
         customer_request_count := 0 } : Feature)].Pairwise
        (fun f g => f.id < g.id)) ∧
    ((find_similar_embeddings [] [] 0 3).length ≤ 3 ∧
     (find_similar_embeddings [] [] 0 3).Pairwise
       (fun a b => b.2 < a.2 ∨ (a.2 = b.2 ∧ a.1 < b.1)) ∧
     (find_similar_features (fun _ => []) [] 0
        [{ id := 0, title := "A", description := "d",
           customer_request_count := 0 }]).Pairwise
       (fun a b => b.2 < a.2 ∨ (a.2 = b.2 ∧ a.1.id < b.1.id))) :=
  ⟨List.pairwise_singleton _ _,
   C8_search_ordering [] [] 0 3 (fun _ => []) []
     [{ id := 0, title := "A", description := "d",
        customer_request_count := 0 }] (List.pairwise_singleton _ _)⟩

/-- Claim C9: for a fixed query and corpus, raising the similarity threshold
shrinks the candidate list: every candidate returned at the higher threshold
is returned at the lower one, and the returned length never grows. -/
theorem C9_threshold_monotonicity (query : List ℝ) (embeddings : List (List ℝ))
    (top_k : ℕ) (t1 t2 : ℝ) (h12 : t1 ≤ t2) :
    (∀ c : ℕ × ℝ, c ∈ find_similar_embeddings query embeddings t2 top_k →
      c ∈ find_similar_embeddings query embeddings t1 top_k) ∧
    (find_similar_embeddings query embeddings t2 top_k).length ≤
      (find_similar_embeddings query embeddings t1 top_k).length := by
  have hup : ∀ a b : ℕ × ℝ, Prod.snd b ≤ Prod.snd a →
      (fun c : ℕ × ℝ => decide (t2 ≤ c.2)) b = true →
      (fun c : ℕ × ℝ => decide (t2 ≤ c.2)) a = true := by
    intro a b hab hb
    simp only [decide_eq_true_eq] at hb ⊢
    exact le_trans hb hab
  have hbase2 := similarities_eq_filter query t2 embeddings.enum
  have hbase1 := similarities_eq_filter query t1 embeddings.enum
  set base := embeddings.enum.filterMap (fun p =>
    (compute_similarity query p.2).map (fun s => (p.1, s))) with hbdef
  have hff : base.filter (fun c : ℕ × ℝ => decide (t2 ≤ c.2))
      = (base.filter (fun c : ℕ × ℝ => decide (t1 ≤ c.2))).filter
          (fun c : ℕ × ℝ => decide (t2 ≤ c.2)) := by
    rw [List.filter_filter]
    apply List.filter_congr
    intro c _
    by_cases h : t2 ≤ c.2
    · have h1 : t1 ≤ c.2 := le_trans h12 h
      simp [h, h1]
    · simp [h]
  have hsorted := sortByScoreDesc_pairwise Prod.snd
    (base.filter (fun c : ℕ × ℝ => decide (t1 ≤ c.2)))
  have hcomm : sortByScoreDesc Prod.snd
        (base.filter (fun c : ℕ × ℝ => decide (t2 ≤ c.2)))
      = (sortByScoreDesc Prod.snd
          (base.filter (fun c : ℕ × ℝ => decide (t1 ≤ c.2)))).filter
            (fun c : ℕ × ℝ => decide (t2 ≤ c.2)) := by
    rw [hff, sortByScoreDesc_filter Prod.snd _ hup]
  rcases filter_append_of_sorted Prod.snd
      (fun c : ℕ × ℝ => decide (t2 ≤ c.2)) hup
      (sortByScoreDesc Prod.snd
        (base.filter (fun c : ℕ × ℝ => decide (t1 ≤ c.2)))) hsorted
    with ⟨suf, hsuf⟩
  constructor
  · intro c hc
    unfold find_similar_embeddings at hc ⊢
    rw [hbase2, hcomm] at hc
    rw [hbase1]
    have hmem := mem_take_append top_k c _ suf hc
    rw [← hsuf] at hmem
    exact hmem
  · unfold find_similar_embeddings
    rw [hbase2, hbase1, hcomm, List.length_take, List.length_take]
    exact min_le_min (le_refl top_k) (List.length_filter_le _ _)

/-- Claim C9, witness: thresholds 0 and 1 on an empty corpus discharge the
threshold-ordering hypothesis at a concrete input. -/
theorem C9_threshold_monotonicity_witness :
    ((0 : ℝ) ≤ 1) ∧
    ((∀ c : ℕ × ℝ, c ∈ find_similar_embeddings [] [] 1 5 →
        c ∈ find_similar_embeddings [] [] 0 5) ∧
     (find_similar_embeddings [] [] 1 5).length ≤
       (find_similar_embeddings [] [] 0 5).length) :=
  ⟨zero_le_one, C9_threshold_monotonicity [] [] 5 0 1 zero_le_one⟩

/-- Incrementing the request count of one feature (identified by an id that is
unique in the store) raises the total request count across the store by
exactly one. -/
theorem sum_count_update (best : Feature) :
    ∀ features : List Feature, (features.map Feature.id).Nodup →
      best ∈ features →
      ((features.map (fun f => if f.id = best.id then
          { f with customer_request_count := f.customer_request_count + 1 }
        else f)).map Feature.customer_request_count).sum
      = (features.map Feature.customer_request_count).sum + 1
  | [] => by
    intro _ h
    exact absurd h (List.not_mem_nil best)
  | f :: fs => by
    intro hnd hb
    rw [List.map_cons] at hnd
    rcases List.nodup_cons.1 hnd with ⟨hfid, hnd'⟩
    rcases List.mem_cons.1 hb with rfl | hb'
    · have htail : fs.map (fun g => if g.id = best.id then
          { g with customer_request_count := g.customer_request_count + 1 }
        else g) = fs := by
        have hall : ∀ g ∈ fs, (if g.id = best.id then
            { g with customer_request_count := g.customer_request_count + 1 }
          else g) = g := by
          intro g hg
          rw [if_neg]
          intro he
          exact hfid (he ▸ List.mem_map_of_mem Feature.id hg)
        calc fs.map _ = fs.map id := List.map_congr_left hall
          _ = fs := List.map_id fs
      rw [List.map_cons, if_pos rfl, htail]
      simp only [List.map_cons, List.sum_cons]
      show best.customer_request_count + 1 +
          (fs.map Feature.customer_request_count).sum
        = best.customer_request_count +
          (fs.map Feature.customer_request_count).sum + 1
      omega
    · have hne : f.id ≠ best.id := by
        intro he
        exact hfid (he ▸ List.mem_map_of_mem Feature.id hb')
      have ih := sum_count_update best fs hnd' hb'
      rw [List.map_cons, if_neg hne]
      simp only [List.map_cons, List.sum_cons, ih]
      omega

/-- Claim C5: when the similarity search returns a top candidate (which, by
construction, scores at least the threshold), processing the Q&A pair attaches
to that existing feature: no new feature is created, the store keeps its
length and every title and description, features other than the match are
untouched, the matched feature's customer_request_count grows by one, and the
total request count across the store grows by exactly one. -/
theorem C5_attach_existing (embed : String → List ℝ) (threshold : ℝ)
    (features : List Feature) (qa : QAPair) (has_customer : Bool)
    (fresh_id : ℕ) (best : Feature) (s : ℝ) (rest : List (Feature × ℝ))
    (hids : (features.map Feature.id).Nodup)
    (hmatch : find_similar_features embed
        (embed (qa.question ++ " " ++ qa.answer)) threshold features
      = (best, s) :: rest) :
    threshold ≤ s ∧
    (process_qa_pair embed threshold features qa has_customer fresh_id).2.2
      = false ∧
    (process_qa_pair embed threshold features qa has_customer fresh_id).1.length
      = features.length ∧
    (process_qa_pair embed threshold features qa has_customer fresh_id).1.map
        Feature.title = features.map Feature.title ∧
    (process_qa_pair embed threshold features qa has_customer fresh_id).1.map
        Feature.description = features.map Feature.description ∧
    best ∈ features ∧
    { best with customer_request_count := best.customer_request_count + 1 }
      ∈ (process_qa_pair embed threshold features qa has_customer fresh_id).1 ∧
    (∀ f ∈ features, f.id ≠ best.id →
      f ∈ (process_qa_pair embed threshold features qa has_customer fresh_id).1) ∧
    ((process_qa_pair embed threshold features qa has_customer fresh_id).1.map
        Feature.customer_request_count).sum
      = (features.map Feature.customer_request_count).sum + 1 := by
  have hbest : best ∈ features ∧ threshold ≤ s := by
    have hmem : ((best, s) : Feature × ℝ) ∈ find_similar_features embed
        (embed (qa.question ++ " " ++ qa.answer)) threshold features := by
      rw [hmatch]
      exact List.mem_cons_self _ _
    unfold find_similar_features at hmem
    have h2 := ((sortByScoreDesc_perm Prod.snd _).mem_iff).1 hmem
    rcases List.mem_filterMap.1 h2 with ⟨f, hf, hguard⟩
    rcases feature_guard_some embed _ threshold f _ hguard with ⟨h1, ht, _⟩
    have h1' : best = f := h1
    refine ⟨?_, ht⟩
    rw [h1']
    exact hf
  have hR : process_qa_pair embed threshold features qa has_customer fresh_id
      = (features.map (fun f => if f.id = best.id then
            { f with customer_request_count := f.customer_request_count + 1 }
          else f),
         { qa with feature_id := some best.id }, false) := by
    unfold process_qa_pair
    rw [hmatch]
  refine ⟨hbest.2, ?_, ?_, ?_, ?_, hbest.1, ?_, ?_, ?_⟩
  · rw [hR]
  · rw [hR]
    exact List.length_map _ _
  · rw [hR]
    show (features.map _).map _ = _
    rw [List.map_map]
    refine List.map_congr_left ?_
    intro f _
    by_cases h : f.id = best.id <;> simp [h]
  · rw [hR]
    show (features.map _).map _ = _
    rw [List.map_map]
    refine List.map_congr_left ?_
    intro f _
    by_cases h : f.id = best.id <;> simp [h]
  · rw [hR]
    exact List.mem_map.2 ⟨best, hbest.1, by rw [if_pos rfl]⟩
  · intro f hf hne
    rw [hR]
    exact List.mem_map.2 ⟨f, hf, by rw [if_neg hne]⟩
  · rw [hR]
    exact sum_count_update best features hids hbest.1

/-- Claim C5, witness: a one-feature corpus matched by identical unit
embeddings at threshold 0 discharges the uniqueness and top-candidate
hypotheses at a concrete input. -/
theorem C5_attach_existing_witness :
    (([({ id := 0, title := "A", description := "d",
          customer_request_count := 3 } : Feature)].map Feature.id).Nodup) ∧
    (find_similar_features (fun _ => [(1 : ℝ)]) [(1 : ℝ)] 0
        [{ id := 0, title := "A", description := "d",
           customer_request_count := 3 }]
      = [({ id := 0, title := "A", description := "d",
            customer_request_count := 3 }, (1 : ℝ))]) ∧
    ((0 : ℝ) ≤ 1 ∧
     (process_qa_pair (fun _ => [(1 : ℝ)]) 0
        [{ id := 0, title := "A", description := "d",
           customer_request_count := 3 }]
        { question := "q", answer := "a", feature_id := none } true 9).2.2
       = false ∧
     ((process_qa_pair (fun _ => [(1 : ℝ)]) 0
        [{ id := 0, title := "A", description := "d",
           customer_request_count := 3 }]
        { question := "q", answer := "a", feature_id := none } true 9).1.map
          Feature.customer_request_count).sum
       = ([({ id := 0, title := "A", description := "d",
              customer_request_count := 3 } : Feature)].map
            Feature.customer_request_count).sum + 1) := by
  have hnd :
      (([({ id := 0, title := "A", description := "d",
            customer_request_count := 3 } : Feature)].map Feature.id).Nodup) := by
    simp
  have hcos1 : cosine_similarity [(1 : ℝ)] [(1 : ℝ)] = 1 := by
    have h1 : l2norm [(1 : ℝ)] = 1 := by
      unfold l2norm
      rw [show dotList [(1 : ℝ)] [(1 : ℝ)] = 1 by simp [dotList], Real.sqrt_one]
    unfold cosine_similarity
    rw [if_neg (by rw [h1]; norm_num)]
    rw [h1, show dotList [(1 : ℝ)] [(1 : ℝ)] = 1 by simp [dotList]]
    norm_num
  have hmatch : find_similar_features (fun _ => [(1 : ℝ)]) [(1 : ℝ)] 0
      [{ id := 0, title := "A", description := "d",
         customer_request_count := 3 }]
      = [({ id := 0, title := "A", description := "d",
            customer_request_count := 3 }, (1 : ℝ))] := by
    unfold find_similar_features
    simp only [List.filterMap_cons, List.filterMap_nil]
    rw [hcos1]
    rw [if_neg (by decide : ¬("d" : String) = "")]
    rw [if_pos (by norm_num : (0 : ℝ) ≤ 1)]
    rfl
  have happ := C5_attach_existing (fun _ => [(1 : ℝ)]) 0
    [{ id := 0, title := "A", description := "d",
       customer_request_count := 3 }]
    { question := "q", answer := "a", feature_id := none } true 9
    { id := 0, title := "A", description := "d", customer_request_count := 3 }
    1 [] hnd hmatch
  exact ⟨hnd, hmatch, happ.1, happ.2.1, happ.2.2.2.2.2.2.2.2⟩

/-- Claim C7, counterexample: processing a Q&A pair whose question and answer
are both empty raises nothing and still creates a FeatureRecord (with the
fallback title "Feature Request"), contradicting the claimed
ValidationError-and-no-record behavior; no ValidationError exists on this
path in the source. -/
theorem C7_counterexample :
    (process_qa_pair (fun _ => []) (0.85 : ℝ) []
      { question := "", answer := "", feature_id := none } true 0).2.2
      = true ∧
    (process_qa_pair (fun _ => []) (0.85 : ℝ) []
      { question := "", answer := "", feature_id := none } true 0).1.map
        Feature.title = ["Feature Request"] := by
  constructor <;> rfl

/-- Claim C7 (amended): a request whose text is empty after normalization
(whitespace-only question, producing no word fragments) is not rejected: no
exception path exists, and when no feature matches, the create branch runs
and materializes a FeatureRecord whose title falls back to "Feature Request"
and whose description is the stripped answer. -/
theorem C7_empty_text_not_rejected (embed : String → List ℝ) (threshold : ℝ)
    (qa : QAPair) (has_customer : Bool) (fresh_id : ℕ)
    (h : splitWords qa.question = []) :
    (process_qa_pair embed threshold [] qa has_customer fresh_id).2.2 = true ∧
    (process_qa_pair embed threshold [] qa has_customer fresh_id).1 =
      [{ id := fresh_id, title := "Feature Request",
         description := pyStrip qa.answer,
         customer_request_count := if has_customer then 1 else 0 }] := by
  have hff : find_similar_features embed
      (embed (qa.question ++ " " ++ qa.answer)) threshold [] = [] := rfl
  have htitle : extract_feature_title qa.question = "Feature Request" := by
    unfold extract_feature_title
    rw [h]
    rfl
  constructor
  · simp only [process_qa_pair, hff]
  · simp only [process_qa_pair, hff, List.nil_append, create_feature_from_qa, htitle]

/-- Claim C7, witness: a whitespace-only question discharges the
empty-after-normalization hypothesis at a concrete input. -/
theorem C7_empty_text_not_rejected_witness :
    splitWords ("  " : String) = [] ∧
    ((process_qa_pair (fun _ => []) (0.85 : ℝ) []
        { question := "  ", answer := " the answer ", feature_id := none }
        true 7).2.2 = true ∧
     (process_qa_pair (fun _ => []) (0.85 : ℝ) []
        { question := "  ", answer := " the answer ", feature_id := none }
        true 7).1 =
      [{ id := 7, title := "Feature Request",
         description := pyStrip (" the answer " : String),
         customer_request_count := if (true : Bool) then 1 else 0 }]) :=
  ⟨by decide,
   C7_empty_text_not_rejected (fun _ => []) (0.85 : ℝ)
     { question := "  ", answer := " the answer ", feature_id := none }
     true 7 (by decide)⟩
